import Mathlib

/-!
Shallow embedding of the `web-synth` voice-management layer
(`src/classes/OscillatorBank.ts`, `src/classes/Voice.ts`).

Numbers (frequencies, amplitudes, times, gains) are modelled as rationals.
The host audio graph (Web Audio `GainNode`, `AudioContext`) is modelled by
explicit event logs: a scheduling call appends an event, `connect` /
`disconnect` toggle a flag.  `AudioContext.currentTime`, which the source
reads as the default value of omitted `time` parameters, is passed in
explicitly as a `now` argument to every method whose body contains a call
that uses the default.

Methods mutate `this` in the source; here each method takes the receiver
and returns the updated receiver (plus the source's return value where it
has one).
-/

set_option maxRecDepth 8000

/-- One sinusoidal component (`Partial` in `src/types`): rate in Hz,
amplitude scalar, phase in radians. -/
structure PartialDesc where
  rate : ℚ
  amplitude : ℚ
  phase : ℚ
deriving DecidableEq

/-- `SpectralLayer` from `src/types`: the partials of one bank. -/
structure SpectralLayer where
  partials : List PartialDesc
deriving DecidableEq

/-- `Spectrum` from `src/types`: ordered layers of a full voice. -/
abbrev Spectrum := List SpectralLayer

/-- `ADSR` from `src/types`. -/
structure ADSR where
  attack : ℚ
  decay : ℚ
  sustain : ℚ
  release : ℚ
deriving DecidableEq

/-- `PlayState` from `src/types`: the three declared states. -/
inductive PlayState where
  | ready
  | playing
  | used
deriving DecidableEq

/-- Events recorded against a host `GainNode`'s gain `AudioParam`:
`linearRampToValueAtTime`, `exponentialRampToValueAtTime`,
`cancelScheduledValues`. -/
inductive GainEvent where
  | linearRamp (value : ℚ) (time : ℚ)
  | expRamp (value : ℚ) (time : ℚ)
  | cancel (time : ℚ)
deriving DecidableEq

/-- A host `GainNode`.  `value` models the host-computed `gain.value`
read-back; the host owns it, so the model treats it as an abstract
snapshot that scheduling calls do not rewrite. -/
structure GainNode where
  value : ℚ
  events : List GainEvent
  connected : Bool
deriving DecidableEq

/-- `audioContext.createGain()`: a fresh gain node (Web Audio default
gain value is 1), not yet connected. -/
def GainNode.create : GainNode :=
  { value := 1, events := [], connected := false }

/-- Calls observed by one host tone generator wrapper. -/
inductive OscEvent where
  | played (pitch : ℚ) (time : ℚ)
  | stopped (time : ℚ)
  | updated (p : PartialDesc)
  | destroyed
deriving DecidableEq

/-- Modelled from the spec: `src/classes/Oscillator.ts` is not part of the
snapshot; the spec (§2, §6) describes the Oscillator as a capability
`play(pitch, time)`, `stop(time)`, `update(partial)`, `setRate(rate)`,
`destroy()` with attribute `rate`, wrapping one host tone generator and
one gain stage.  We keep the descriptor fields it was built from /
updated to, and an observable call log. -/
structure Oscillator where
  rate : ℚ
  amplitude : ℚ
  phase : ℚ
  events : List OscEvent
deriving DecidableEq

/-- Modelled from the spec: constructing an Oscillator from a partial
descriptor. -/
def Oscillator.build (p : PartialDesc) : Oscillator :=
  { rate := p.rate, amplitude := p.amplitude, phase := p.phase, events := [] }

/-- Modelled from the spec: `play(pitch, time)` on the tone generator. -/
def Oscillator.play (o : Oscillator) (pitch time : ℚ) : Oscillator :=
  { o with events := o.events ++ [OscEvent.played pitch time] }

/-- Modelled from the spec: `stop(time)` on the tone generator. -/
def Oscillator.stop (o : Oscillator) (time : ℚ) : Oscillator :=
  { o with events := o.events ++ [OscEvent.stopped time] }

/-- Modelled from the spec: `update(partial)` replaces the descriptor of
the component, and the invocation itself is observable. -/
def Oscillator.update (o : Oscillator) (p : PartialDesc) : Oscillator :=
  { o with
    rate := p.rate, amplitude := p.amplitude, phase := p.phase,
    events := o.events ++ [OscEvent.updated p] }

/-- Modelled from the spec: `setRate(rate)` writes the `rate` attribute. -/
def Oscillator.setRate (o : Oscillator) (r : ℚ) : Oscillator :=
  { o with rate := r }

/-- Modelled from the spec: `destroy()` (disconnect + release). -/
def Oscillator.destroy (o : Oscillator) : Oscillator :=
  { o with events := o.events ++ [OscEvent.destroyed] }

/-- The partial descriptor an oscillator currently realizes. -/
def Oscillator.descriptor (o : Oscillator) : PartialDesc :=
  { rate := o.rate, amplitude := o.amplitude, phase := o.phase }

/-- JavaScript `Array.prototype.splice(index, 1)` start position:
`index < 0 ? max(length + index, 0) : min(index, length)`. -/
def spliceStart (n : ℕ) (index : ℤ) : ℕ :=
  if index < 0 then ((n : ℤ) + index).toNat else min index.toNat n

/-- JavaScript `l.splice(index, 1)`: the removed element (if any) and the
remaining list. -/
def spliceOne {α : Type} (l : List α) (index : ℤ) : Option α × List α :=
  let s := spliceStart l.length index
  (l.get? s, l.take s ++ l.drop (s + 1))

/-- `OscillatorBank` (`src/classes/OscillatorBank.ts`).  Field names drop
the leading underscore of the private TS fields. -/
structure OscillatorBank where
  gain : GainNode
  state : PlayState
  pitch : ℚ
  oscillators : List Oscillator
deriving DecidableEq

/-- `new OscillatorBank({partials, audioContext, destination})`: create
the gain stage, connect it, build one oscillator per partial, set gain
to 1 (a linear ramp at `now`, the default time), enter `ready`. -/
def OscillatorBank.construct (partials : List PartialDesc) (now : ℚ) :
    OscillatorBank :=
  { gain := { GainNode.create with
                connected := true,
                events := [GainEvent.linearRamp 1 now] },
    state := PlayState.ready,
    pitch := 20,
    oscillators := partials.map Oscillator.build }

/-- `OscillatorBank.play(pitch, time)`: no-op when `used`; records the
pitch, forwards `play` to every oscillator, transitions to `playing`. -/
def OscillatorBank.play (b : OscillatorBank) (pitch time : ℚ) :
    OscillatorBank :=
  if b.state = PlayState.used then b
  else
    { b with
      pitch := pitch,
      oscillators := b.oscillators.map (fun o => o.play pitch time),
      state := PlayState.playing }

/-- `OscillatorBank.stop(time)`: forwards `stop` to every oscillator. -/
def OscillatorBank.stop (b : OscillatorBank) (time : ℚ) : OscillatorBank :=
  { b with oscillators := b.oscillators.map (fun o => o.stop time) }

/-- `OscillatorBank.removeOscillator(index)`: `splice(index, 1)[0]`;
when an element was removed it is destroyed and returned, otherwise
`undefined` is returned and nothing changes. -/
def OscillatorBank.removeOscillator (b : OscillatorBank) (index : ℤ) :
    Option Oscillator × OscillatorBank :=
  let r := spliceOne b.oscillators index
  match r.1 with
  | none => (none, { b with oscillators := r.2 })
  | some o => (some o.destroy, { b with oscillators := r.2 })

/-- `OscillatorBank.createOscillator(partial)`: build a new oscillator
connected to the bank's gain stage; if the bank is `playing`, immediately
play it at the bank's current pitch (default time = `now`); push it. -/
def OscillatorBank.createOscillator (b : OscillatorBank) (p : PartialDesc)
    (now : ℚ) : OscillatorBank :=
  let newOscillator := Oscillator.build p
  let newOscillator :=
    if b.state = PlayState.playing then newOscillator.play b.pitch now
    else newOscillator
  { b with oscillators := b.oscillators ++ [newOscillator] }

/-- The oscillator appended by `createOscillator` as a function of the
receiver's state and pitch. -/
def OscillatorBank.newOscillatorFor (b : OscillatorBank) (now : ℚ)
    (p : PartialDesc) : Oscillator :=
  if b.state = PlayState.playing then (Oscillator.build p).play b.pitch now
  else Oscillator.build p

/-- The removal loop of `OscillatorBank.update`: `removeOscillator(c)`
executed `k` times at the same fixed index `c`. -/
def OscillatorBank.removeLoop (b : OscillatorBank) (c : ℕ) : ℕ → OscillatorBank
  | 0 => b
  | k + 1 => OscillatorBank.removeLoop (b.removeOscillator (c : ℤ)).2 c k

/-- The creation loop of `OscillatorBank.update`: `createOscillator` on
each remaining descriptor in order. -/
def OscillatorBank.createLoop (b : OscillatorBank) (ps : List PartialDesc)
    (now : ℚ) : OscillatorBank :=
  ps.foldl (fun acc p => acc.createOscillator p now) b

/-- `OscillatorBank.update({partials})`: reconcile the owned oscillators
against the new partial list.  `commonLength = min(N, M)`,
`difference = N - M`; the common elements receive an in-place `update`
(the source's per-index loop over a dense array is the `zipWith` below,
with the untouched tail re-appended); then `difference` removals at the
fixed index `commonLength`, or `-difference` creations from the
descriptor tail. -/
def OscillatorBank.update (b : OscillatorBank) (layer : SpectralLayer)
    (now : ℚ) : OscillatorBank :=
  let commonLength := min b.oscillators.length layer.partials.length
  let difference : ℤ :=
    (b.oscillators.length : ℤ) - (layer.partials.length : ℤ)
  let b1 :=
    { b with
      oscillators :=
        List.zipWith Oscillator.update b.oscillators layer.partials
          ++ b.oscillators.drop commonLength }
  if 0 < difference then
    b1.removeLoop commonLength difference.toNat
  else if difference < 0 then
    b1.createLoop (layer.partials.drop commonLength) now
  else b1

/-- `OscillatorBank.setGain(value, currentTime)`: linear ramp on the
bank's gain stage. -/
def OscillatorBank.setGain (b : OscillatorBank) (value time : ℚ) :
    OscillatorBank :=
  { b with gain :=
      { b.gain with events := b.gain.events ++ [GainEvent.linearRamp value time] } }

/-- `OscillatorBank.shiftRate(shift)`: `setRate(rate + shift)` on every
oscillator. -/
def OscillatorBank.shiftRate (b : OscillatorBank) (shift : ℚ) :
    OscillatorBank :=
  { b with oscillators := b.oscillators.map (fun o => o.setRate (o.rate + shift)) }

/-- `OscillatorBank.destroy()`: when `playing`, stop all oscillators
(at the default time `now`) then disconnect the gain stage; otherwise
disconnect directly.  `_state` is never written. -/
def OscillatorBank.destroy (b : OscillatorBank) (now : ℚ) : OscillatorBank :=
  if b.state = PlayState.playing then
    let b' := b.stop now
    { b' with gain := { b'.gain with connected := false } }
  else
    { b with gain := { b.gain with connected := false } }

/-- The current descriptor list realized by a bank's oscillators. -/
def OscillatorBank.descriptors (b : OscillatorBank) : List PartialDesc :=
  b.oscillators.map Oscillator.descriptor

/-- The tiny positive floor `0.0000000001` that `Voice.setGain`
substitutes for a falsy target (exponential ramps cannot reach zero). -/
def gainFloor : ℚ := 1 / 10000000000

/-- The value actually scheduled by `Voice.setGain`: `value || 1e-10`
(`0` is the falsy number here). -/
def rampTarget (value : ℚ) : ℚ :=
  if value = 0 then gainFloor else value

/-- `Voice` (`src/classes/Voice.ts`).  Field names drop the leading
underscore; `id` is taken as given (the source substitutes a random hex
string when the option is omitted). -/
structure Voice where
  id : String
  pitch : ℚ
  state : PlayState
  oscillatorBanks : List OscillatorBank
  adsr : ADSR
  gain : GainNode
deriving DecidableEq

/-- `Voice.setGain(value, time)`: exponential ramp to `value || 1e-10`. -/
def Voice.setGain (v : Voice) (value time : ℚ) : Voice :=
  { v with gain :=
      { v.gain with
        events := v.gain.events ++ [GainEvent.expRamp (rampTarget value) time] } }

/-- The bank appended by `Voice.createOscillatorBank` as a function of
the receiver's state and pitch: a freshly constructed bank, played at the
voice's pitch (default time `now`) when the voice is `playing`. -/
def Voice.newBankFor (v : Voice) (now : ℚ) (layer : SpectralLayer) :
    OscillatorBank :=
  if v.state = PlayState.playing then
    (OscillatorBank.construct layer.partials now).play v.pitch now
  else OscillatorBank.construct layer.partials now

/-- `Voice.createOscillatorBank(layer)`: build a new bank from the
layer; if the voice is `playing`, immediately play it at the voice's
pitch; push it. -/
def Voice.createOscillatorBank (v : Voice) (layer : SpectralLayer) (now : ℚ) :
    Voice :=
  { v with oscillatorBanks := v.oscillatorBanks ++ [v.newBankFor now layer] }

/-- `new Voice({id, spectrum, adsr, audioContext, destination})`: store
the adsr, state `ready`, create and connect the gain stage, then build
one bank per layer (via `createOscillatorBank`, which sees state
`ready`, so no bank is auto-played). -/
def Voice.construct (id : String) (spectrum : Spectrum) (adsr : ADSR)
    (now : ℚ) : Voice :=
  let v0 : Voice :=
    { id := id, pitch := 20, state := PlayState.ready,
      oscillatorBanks := [], adsr := adsr,
      gain := { GainNode.create with connected := true } }
  spectrum.foldl (fun v layer => v.createOscillatorBank layer now) v0

/-- `Voice.play(pitch, velocity, time)`: no-op when `used`.  Records the
pitch.  When already `playing`: cancel scheduled gain changes at `time`,
re-anchor the current gain value at `time`, jump to `velocity * sustain`
at `time`.  Otherwise: `setGain(0)` at the default time `now`.  Then
forward `play(pitch, time)` to every bank, transition to `playing`, and
schedule the attack ramp (to `velocity`, ending `time + attack`) and the
decay ramp (to `velocity * sustain`, ending `time + attack + decay`). -/
def Voice.play (v : Voice) (pitch velocity time now : ℚ) : Voice :=
  if v.state = PlayState.used then v
  else
    let v1 := { v with pitch := pitch }
    let v2 :=
      if v1.state = PlayState.playing then
        let va := { v1 with gain :=
          { v1.gain with events := v1.gain.events ++ [GainEvent.cancel time] } }
        let vb := va.setGain va.gain.value time
        vb.setGain (velocity * vb.adsr.sustain) time
      else v1.setGain 0 now
    let v3 := { v2 with
      oscillatorBanks :=
        v2.oscillatorBanks.map (fun b : OscillatorBank => b.play pitch time) }
    let v4 := { v3 with state := PlayState.playing }
    let timeAttackEnds := time + v4.adsr.attack
    let v5 := v4.setGain velocity timeAttackEnds
    let timeDecayEnds := timeAttackEnds + v5.adsr.decay
    v5.setGain (velocity * v5.adsr.sustain) timeDecayEnds

/-- `Voice.release(time)`: cancel scheduled gain changes at `time`,
re-anchor the current gain value at `time`, ramp to (near-)zero ending
at `time + release`.  `_state` is never written. -/
def Voice.release (v : Voice) (time : ℚ) : Voice :=
  let v1 := { v with gain :=
    { v.gain with events := v.gain.events ++ [GainEvent.cancel time] } }
  let timeReleaseEnds := time + v1.adsr.release
  let v2 := v1.setGain v1.gain.value time
  v2.setGain 0 timeReleaseEnds

/-- A JavaScript falsy index: `!i` is true for an absent field and for
`0`. -/
def falsyIdx : Option ℕ → Bool
  | none => true
  | some 0 => true
  | some (_ + 1) => false

/-- Result of `Voice.get`: a bank or an oscillator (the source returns
`OscillatorBank | Oscillator | undefined`). -/
inductive GetResult where
  | bank (b : OscillatorBank)
  | osc (o : Oscillator)
deriving DecidableEq

/-- `Voice.get({oscIndex, partialIndex})`: `undefined` when `oscIndex`
is falsy; otherwise look up the bank; when `partialIndex` is falsy or
the bank is missing, return the bank lookup as-is; otherwise the
oscillator at `partialIndex` within the bank. -/
def Voice.get (v : Voice) (oscIndex partialIndex : Option ℕ) :
    Option GetResult :=
  if falsyIdx oscIndex then none
  else
    match v.oscillatorBanks.get? (oscIndex.getD 0) with
    | none => none
    | some b =>
        if falsyIdx partialIndex then some (GetResult.bank b)
        else (b.oscillators.get? (partialIndex.getD 0)).map GetResult.osc

/-- `Voice.removeOscillatorBank(index)`: `splice(index, 1)[0]`, destroy
the removed bank (its `destroy` uses the default time `now`), return
it. -/
def Voice.removeOscillatorBank (v : Voice) (index : ℤ) (now : ℚ) :
    Option OscillatorBank × Voice :=
  let r := spliceOne v.oscillatorBanks index
  match r.1 with
  | none => (none, { v with oscillatorBanks := r.2 })
  | some b => (some (b.destroy now), { v with oscillatorBanks := r.2 })

/-- The removal loop of `Voice.update`. -/
def Voice.removeLoop (v : Voice) (c : ℕ) (now : ℚ) : ℕ → Voice
  | 0 => v
  | k + 1 => Voice.removeLoop (v.removeOscillatorBank (c : ℤ) now).2 c now k

/-- The creation loop of `Voice.update`. -/
def Voice.createLoop (v : Voice) (layers : List SpectralLayer) (now : ℚ) :
    Voice :=
  layers.foldl (fun acc layer => acc.createOscillatorBank layer now) v

/-- `Voice.update(spectrum)`: no-op when `used`; otherwise the same
reconciliation as `OscillatorBank.update`, on banks against layers. -/
def Voice.update (v : Voice) (spectrum : Spectrum) (now : ℚ) : Voice :=
  if v.state = PlayState.used then v
  else
    let commonLength := min v.oscillatorBanks.length spectrum.length
    let difference : ℤ :=
      (v.oscillatorBanks.length : ℤ) - (spectrum.length : ℤ)
    let v1 :=
      { v with
        oscillatorBanks :=
          List.zipWith (fun b layer => b.update layer now) v.oscillatorBanks
              spectrum
            ++ v.oscillatorBanks.drop commonLength }
    if 0 < difference then
      v1.removeLoop commonLength now difference.toNat
    else if difference < 0 then
      v1.createLoop (spectrum.drop commonLength) now
    else v1

/-- `Voice.updateAdsr(adsr)`. -/
def Voice.updateAdsr (v : Voice) (adsr : ADSR) : Voice :=
  { v with adsr := adsr }

/-- `Voice.getOscillators()`: every oscillator across every bank, in
bank-major order. -/
def Voice.getOscillators (v : Voice) : List Oscillator :=
  (v.oscillatorBanks.map OscillatorBank.oscillators).flatten

/-- `Voice.destroy()`: set state `used` (permanent), stop every bank
(default time `now`), disconnect the gain stage. -/
def Voice.destroy (v : Voice) (now : ℚ) : Voice :=
  let v1 := { v with state := PlayState.used }
  let v2 := { v1 with
    oscillatorBanks :=
      v1.oscillatorBanks.map (fun b : OscillatorBank => b.stop now) }
  { v2 with gain := { v2.gain with connected := false } }

/-- The voice's own current descriptor list: one layer per bank, each the
bank's current partial descriptors. -/
def Voice.spectrumOf (v : Voice) : Spectrum :=
  v.oscillatorBanks.map (fun b => SpectralLayer.mk b.descriptors)

/-- The list evolution of the fixed-index removal loop shared by
`OscillatorBank.update` and `Voice.update`: `splice(c, 1)` iterated. -/
def spliceLoop {α : Type} (l : List α) (c : ℕ) : ℕ → List α
  | 0 => l
  | k + 1 => spliceLoop (spliceOne l (c : ℤ)).2 c k

/-- One invocation of a public `OscillatorBank` method, with its
arguments (`now` is the host clock value read for defaulted `time`
parameters during that call). -/
inductive BankOp where
  | play (pitch time : ℚ)
  | stop (time : ℚ)
  | update (layer : SpectralLayer) (now : ℚ)
  | createOscillator (p : PartialDesc) (now : ℚ)
  | removeOscillator (index : ℤ)
  | setGain (value time : ℚ)
  | shiftRate (shift : ℚ)
  | destroy (now : ℚ)

/-- Run one public method against a bank. -/
def BankOp.apply (b : OscillatorBank) : BankOp → OscillatorBank
  | BankOp.play pitch time => b.play pitch time
  | BankOp.stop time => b.stop time
  | BankOp.update layer now => b.update layer now
  | BankOp.createOscillator p now => b.createOscillator p now
  | BankOp.removeOscillator index => (b.removeOscillator index).2
  | BankOp.setGain value time => b.setGain value time
  | BankOp.shiftRate shift => b.shiftRate shift
  | BankOp.destroy now => b.destroy now

/-- A one-oscillator test bank. -/
def testBank1 : OscillatorBank := OscillatorBank.construct [⟨100, 1, 0⟩] 0

/-- A three-oscillator test bank. -/
def testBank3 : OscillatorBank :=
  OscillatorBank.construct [⟨100, 1, 0⟩, ⟨200, 1 / 2, 0⟩, ⟨300, 1 / 4, 0⟩] 0

/-- A two-descriptor test layer. -/
def testLayer2 : SpectralLayer := ⟨[⟨150, 1, 0⟩, ⟨250, 1, 0⟩]⟩

/-- The spec's §8 scenario voice: one layer with one partial,
adsr = {attack 0.1, decay 0.1, sustain 0.5, release 0.2}. -/
def testVoice : Voice :=
  Voice.construct "test" [⟨[⟨100, 1, 0⟩]⟩]
    ⟨1 / 10, 1 / 10, 1 / 2, 1 / 5⟩ 0

/-- A three-bank test voice. -/
def v3banks : Voice :=
  Voice.construct "w" [⟨[]⟩, ⟨[⟨1, 1, 1⟩]⟩, ⟨[⟨2, 2, 2⟩]⟩] ⟨1, 1, 1, 1⟩ 0

theorem spliceStart_coe (n c : ℕ) : spliceStart n (c : ℤ) = min c n := by
  simp [spliceStart]

theorem spliceOne_coe {α : Type} (l : List α) (c : ℕ) :
    spliceOne l (c : ℤ) =
      (l.get? (min c l.length),
        l.take (min c l.length) ++ l.drop (min c l.length + 1)) := by
  simp [spliceOne, spliceStart_coe]

theorem spliceLoop_eq_take {α : Type} (c : ℕ) :
    ∀ (k : ℕ) (l : List α), l.length = c + k → spliceLoop l c k = l.take c := by
  intro k
  induction k with
  | zero =>
      intro l hl
      have h : l.length ≤ c := by omega
      simp [spliceLoop, List.take_of_length_le h]
  | succ k ih =>
      intro l hl
      have hc : min c l.length = c := by omega
      have hsnd : (spliceOne l (c : ℤ)).2 = l.take c ++ l.drop (c + 1) := by
        rw [spliceOne_coe, hc]
      have hlen : (l.take c ++ l.drop (c + 1)).length = c + k := by
        simp
        omega
      have := ih (l.take c ++ l.drop (c + 1)) hlen
      calc spliceLoop l c (k + 1)
          = spliceLoop (l.take c ++ l.drop (c + 1)) c k := by
            simp [spliceLoop, hsnd]
        _ = (l.take c ++ l.drop (c + 1)).take c := this
        _ = l.take c := by
            apply List.take_left'
            simp
            omega

theorem OscillatorBank.removeOscillator_snd (b : OscillatorBank) (i : ℤ) :
    (b.removeOscillator i).2 =
      { b with oscillators := (spliceOne b.oscillators i).2 } := by
  cases h : (spliceOne b.oscillators i).1 <;>
    simp [OscillatorBank.removeOscillator, h]

theorem OscillatorBank.removeLoop_eq_bank (c : ℕ) :
    ∀ (k : ℕ) (b : OscillatorBank),
      b.removeLoop c k = { b with oscillators := spliceLoop b.oscillators c k } := by
  intro k
  induction k with
  | zero => intro b; rfl
  | succ k ih =>
      intro b
      calc b.removeLoop c (k + 1)
          = (b.removeOscillator (c : ℤ)).2.removeLoop c k := rfl
        _ = ({ b with oscillators := (spliceOne b.oscillators (c : ℤ)).2 } :
              OscillatorBank).removeLoop c k := by
            rw [OscillatorBank.removeOscillator_snd]
        _ = { b with oscillators := spliceLoop b.oscillators c (k + 1) } := by
            rw [ih]
            rfl

theorem OscillatorBank.createLoop_eq_bank (now : ℚ) :
    ∀ (ps : List PartialDesc) (b : OscillatorBank),
      b.createLoop ps now =
        { b with oscillators :=
            b.oscillators ++ ps.map (b.newOscillatorFor now) } := by
  intro ps
  induction ps with
  | nil => intro b; simp [OscillatorBank.createLoop]
  | cons p ps ih =>
      intro b
      calc b.createLoop (p :: ps) now
          = (b.createOscillator p now).createLoop ps now := rfl
        _ = ({ b with oscillators :=
                b.oscillators ++ [b.newOscillatorFor now p] } :
              OscillatorBank).createLoop ps now := rfl
        _ = { b with oscillators :=
                b.oscillators ++ (p :: ps).map (b.newOscillatorFor now) } := by
            rw [ih]
            simp [OscillatorBank.newOscillatorFor]

/-- Closed form of `OscillatorBank.update`: the retained children get the
in-place per-index `update` (in order), and when the descriptor list is
longer than the owned collection, the tail descriptors are appended as
freshly created oscillators, in order. -/
theorem OscillatorBank.update_eq_bank (b : OscillatorBank) (layer : SpectralLayer)
    (now : ℚ) :
    b.update layer now =
      { b with oscillators :=
          List.zipWith Oscillator.update b.oscillators layer.partials
            ++ (layer.partials.drop b.oscillators.length).map
                (b.newOscillatorFor now) } := by
  have hz :
      (List.zipWith Oscillator.update b.oscillators layer.partials).length =
        min b.oscillators.length layer.partials.length := by
    simp
  by_cases h1 :
      (0 : ℤ) < (b.oscillators.length : ℤ) - (layer.partials.length : ℤ)
  · have hM : layer.partials.length < b.oscillators.length := by omega
    have hmin :
        min b.oscillators.length layer.partials.length =
          layer.partials.length := by omega
    rw [OscillatorBank.update]
    simp only [h1, if_pos]
    rw [OscillatorBank.removeLoop_eq_bank]
    have hlen :
        (List.zipWith Oscillator.update b.oscillators layer.partials ++
            b.oscillators.drop
              (min b.oscillators.length layer.partials.length)).length =
          min b.oscillators.length layer.partials.length +
            ((b.oscillators.length : ℤ) -
              (layer.partials.length : ℤ)).toNat := by
      simp
      omega
    rw [spliceLoop_eq_take _ _ _ hlen]
    rw [List.take_left' (by rw [hz])]
    have hdrop : layer.partials.drop b.oscillators.length = [] :=
      List.drop_eq_nil_of_le (le_of_lt hM)
    rw [hdrop]
    simp
  · by_cases h2 :
        ((b.oscillators.length : ℤ) - (layer.partials.length : ℤ)) < 0
    · have hN : b.oscillators.length < layer.partials.length := by omega
      have hmin :
          min b.oscillators.length layer.partials.length =
            b.oscillators.length := by omega
      rw [OscillatorBank.update]
      simp only [h1, h2, if_neg, if_pos, not_false_iff]
      rw [OscillatorBank.createLoop_eq_bank]
      have hdropo :
          b.oscillators.drop
              (min b.oscillators.length layer.partials.length) = [] := by
        rw [hmin]
        simp
      rw [hdropo, hmin]
      have hstate :
          ({ b with oscillators :=
              List.zipWith Oscillator.update b.oscillators layer.partials ++
                [] } : OscillatorBank).newOscillatorFor now =
            b.newOscillatorFor now := rfl
      rw [hstate]
      simp
    · have hNM : b.oscillators.length = layer.partials.length := by omega
      rw [OscillatorBank.update]
      simp only [h1, h2, if_neg, not_false_iff]
      have hdropo :
          b.oscillators.drop
              (min b.oscillators.length layer.partials.length) = [] := by
        simp [hNM]
      have hdropp : layer.partials.drop b.oscillators.length = [] := by
        simp [hNM]
      rw [hdropo, hdropp]
      simp

theorem Voice.newBankFor_set_banks (v : Voice) (L : List OscillatorBank)
    (now : ℚ) :
    ({ v with oscillatorBanks := L } : Voice).newBankFor now =
      v.newBankFor now := rfl

theorem Voice.removeOscillatorBank_snd (v : Voice) (i : ℤ) (now : ℚ) :
    (v.removeOscillatorBank i now).2 =
      { v with oscillatorBanks := (spliceOne v.oscillatorBanks i).2 } := by
  cases h : (spliceOne v.oscillatorBanks i).1 <;>
    simp [Voice.removeOscillatorBank, h]

theorem Voice.removeLoop_eq_voice (c : ℕ) (now : ℚ) :
    ∀ (k : ℕ) (v : Voice),
      v.removeLoop c now k =
        { v with oscillatorBanks := spliceLoop v.oscillatorBanks c k } := by
  intro k
  induction k with
  | zero => intro v; rfl
  | succ k ih =>
      intro v
      calc v.removeLoop c now (k + 1)
          = (v.removeOscillatorBank (c : ℤ) now).2.removeLoop c now k := rfl
        _ = ({ v with oscillatorBanks := (spliceOne v.oscillatorBanks (c : ℤ)).2 } :
              Voice).removeLoop c now k := by
            rw [Voice.removeOscillatorBank_snd]
        _ = { v with oscillatorBanks := spliceLoop v.oscillatorBanks c (k + 1) } := by
            rw [ih]
            rfl

theorem Voice.createLoop_eq_voice (now : ℚ) :
    ∀ (layers : List SpectralLayer) (v : Voice),
      v.createLoop layers now =
        { v with oscillatorBanks :=
            v.oscillatorBanks ++ layers.map (v.newBankFor now) } := by
  intro layers
  induction layers with
  | nil => intro v; simp [Voice.createLoop]
  | cons layer layers ih =>
      intro v
      calc v.createLoop (layer :: layers) now
          = (v.createOscillatorBank layer now).createLoop layers now := rfl
        _ = ({ v with oscillatorBanks :=
                v.oscillatorBanks ++ [v.newBankFor now layer] } :
              Voice).createLoop layers now := rfl
        _ = { v with oscillatorBanks :=
                v.oscillatorBanks ++ (layer :: layers).map (v.newBankFor now) } := by
            rw [ih]
            simp [Voice.newBankFor]

/-- Closed form of `Voice.update` away from the `used` guard: the
retained banks get the per-index `update` (in order) and tail layers are
appended as freshly built banks, in order. -/
theorem Voice.update_eq_voice (v : Voice) (s : Spectrum) (now : ℚ)
    (h : v.state ≠ PlayState.used) :
    v.update s now =
      { v with oscillatorBanks :=
          List.zipWith (fun b layer => b.update layer now) v.oscillatorBanks s
            ++ (s.drop v.oscillatorBanks.length).map (v.newBankFor now) } := by
  have hz :
      (List.zipWith (fun b layer => OscillatorBank.update b layer now)
          v.oscillatorBanks s).length =
        min v.oscillatorBanks.length s.length := by
    simp
  by_cases h1 : (0 : ℤ) < (v.oscillatorBanks.length : ℤ) - (s.length : ℤ)
  · have hM : s.length < v.oscillatorBanks.length := by omega
    rw [Voice.update]
    simp only [h, h1, if_pos, if_neg, not_false_iff]
    rw [Voice.removeLoop_eq_voice]
    have hlen :
        (List.zipWith (fun b layer => OscillatorBank.update b layer now)
              v.oscillatorBanks s ++
            v.oscillatorBanks.drop (min v.oscillatorBanks.length s.length)).length =
          min v.oscillatorBanks.length s.length +
            ((v.oscillatorBanks.length : ℤ) - (s.length : ℤ)).toNat := by
      simp
      omega
    rw [spliceLoop_eq_take _ _ _ hlen]
    rw [List.take_left' (by rw [hz])]
    have hdrop : s.drop v.oscillatorBanks.length = [] :=
      List.drop_eq_nil_of_le (le_of_lt hM)
    rw [hdrop]
    simp
  · by_cases h2 : ((v.oscillatorBanks.length : ℤ) - (s.length : ℤ)) < 0
    · have hN : v.oscillatorBanks.length < s.length := by omega
      have hmin : min v.oscillatorBanks.length s.length =
          v.oscillatorBanks.length := by omega
      rw [Voice.update]
      simp only [h, h1, h2, if_neg, if_pos, not_false_iff]
      rw [Voice.createLoop_eq_voice]
      have hdropo :
          v.oscillatorBanks.drop (min v.oscillatorBanks.length s.length) = [] := by
        rw [hmin]
        simp
      rw [hdropo, hmin]
      rw [Voice.newBankFor_set_banks]
      simp
    · have hNM : v.oscillatorBanks.length = s.length := by omega
      rw [Voice.update]
      simp only [h, h1, h2, if_neg, not_false_iff]
      have hdropo :
          v.oscillatorBanks.drop (min v.oscillatorBanks.length s.length) = [] := by
        simp [hNM]
      have hdropp : s.drop v.oscillatorBanks.length = [] := by
        simp [hNM]
      rw [hdropo, hdropp]
      simp

theorem OscillatorBank.update_length_bank (b : OscillatorBank)
    (layer : SpectralLayer) (now : ℚ) :
    (b.update layer now).oscillators.length = layer.partials.length := by
  rw [OscillatorBank.update_eq_bank]
  simp
  omega

theorem OscillatorBank.update_state_bank (b : OscillatorBank)
    (layer : SpectralLayer) (now : ℚ) :
    (b.update layer now).state = b.state := by
  rw [OscillatorBank.update_eq_bank]

theorem OscillatorBank.update_pitch (b : OscillatorBank)
    (layer : SpectralLayer) (now : ℚ) :
    (b.update layer now).pitch = b.pitch := by
  rw [OscillatorBank.update_eq_bank]

theorem Voice.update_length_voice (v : Voice) (s : Spectrum) (now : ℚ)
    (h : v.state ≠ PlayState.used) :
    (v.update s now).oscillatorBanks.length = s.length := by
  rw [Voice.update_eq_voice v s now h]
  simp
  omega

theorem Voice.update_state_voice (v : Voice) (s : Spectrum) (now : ℚ) :
    (v.update s now).state = v.state := by
  by_cases h : v.state = PlayState.used
  · simp [Voice.update, h]
  · rw [Voice.update_eq_voice v s now h]

/-- Closed form of `Voice.play` on a `ready` voice: record the pitch,
schedule `setGain(0)` at `now`, play every bank at `time`, enter
`playing`, then schedule the attack and decay ramps. -/
theorem Voice.play_ready (v : Voice) (pitch velocity time now : ℚ)
    (h : v.state = PlayState.ready) :
    v.play pitch velocity time now =
      { v with
        pitch := pitch,
        state := PlayState.playing,
        oscillatorBanks :=
          v.oscillatorBanks.map (fun b : OscillatorBank => b.play pitch time),
        gain := { v.gain with events := v.gain.events ++
            [GainEvent.expRamp (rampTarget 0) now,
             GainEvent.expRamp (rampTarget velocity) (time + v.adsr.attack),
             GainEvent.expRamp (rampTarget (velocity * v.adsr.sustain))
               (time + v.adsr.attack + v.adsr.decay)] } } := by
  simp [Voice.play, Voice.setGain, h]

/-- C1: for every OscillatorBank (and every Voice) not in state `used`
and every dense descriptor list of length M, `update` leaves exactly M
children; the first min(N, M) children are the original children updated
in place with descriptors 0..min-1 in original order, and when M > N the
appended children are built from descriptors min..M-1 in order. -/
theorem claim_C1 :
    (∀ (b : OscillatorBank) (layer : SpectralLayer) (now : ℚ),
        b.state ≠ PlayState.used →
        (b.update layer now).oscillators.length = layer.partials.length ∧
        (b.update layer now).oscillators =
          List.zipWith Oscillator.update b.oscillators layer.partials ++
            (layer.partials.drop b.oscillators.length).map
              (b.newOscillatorFor now)) ∧
    (∀ (v : Voice) (s : Spectrum) (now : ℚ),
        v.state ≠ PlayState.used →
        (v.update s now).oscillatorBanks.length = s.length ∧
        (v.update s now).oscillatorBanks =
          List.zipWith (fun b layer => OscillatorBank.update b layer now)
              v.oscillatorBanks s ++
            (s.drop v.oscillatorBanks.length).map (v.newBankFor now)) := by
  constructor
  · intro b layer now _
    refine ⟨OscillatorBank.update_length_bank b layer now, ?_⟩
    rw [OscillatorBank.update_eq_bank]
  · intro v s now h
    refine ⟨Voice.update_length_voice v s now h, ?_⟩
    rw [Voice.update_eq_voice v s now h]

theorem claim_C1_witness :
    testBank1.state ≠ PlayState.used ∧
    (testBank1.update testLayer2 0).oscillators.length =
      testLayer2.partials.length :=
  ⟨by decide, (claim_C1.1 testBank1 testLayer2 0 (by decide)).1⟩

/-- C2: after `Voice.destroy`, every subsequent `play` and `update` call
returns the voice unchanged (so no state, pitch or gain-schedule change,
and no call is forwarded to any bank), and a repeated `destroy` is
defined (no throw is possible) and keeps state `used`. -/
theorem claim_C2 :
    ∀ (v : Voice) (now pitch velocity time now2 now3 : ℚ) (s : Spectrum),
      (v.destroy now).play pitch velocity time now2 = v.destroy now ∧
      (v.destroy now).update s now2 = v.destroy now ∧
      ((v.destroy now).destroy now3).state = PlayState.used := by
  intro v now pitch velocity time now2 now3 s
  refine ⟨?_, ?_, rfl⟩
  · simp [Voice.play, Voice.destroy]
  · simp [Voice.update, Voice.destroy]

/-- C3: on a `ready` voice, `play(pitch, velocity, time)` records the
pitch, forwards `play(pitch, time)` to every bank, transitions to
`playing`, and schedules the envelope through `setGain` (near-zero jump
at the call's `now`, ramp to `velocity` ending `time + attack`, ramp to
`velocity * sustain` ending `time + attack + decay`); in the spec's §8
scenario (one layer, adsr {0.1, 0.1, 0.5, 0.2}, `play(440, 1, 0)`), the
scheduled gain targets are near-zero, then 1 at 0.1, then 0.5 at 0.2,
the state becomes `playing`, and the single bank's oscillator receives
`play(440, 0)`. -/
theorem claim_C3 :
    (∀ (v : Voice) (pitch velocity time now : ℚ),
        v.state = PlayState.ready →
        (v.play pitch velocity time now).state = PlayState.playing ∧
        (v.play pitch velocity time now).pitch = pitch ∧
        (v.play pitch velocity time now).oscillatorBanks =
          v.oscillatorBanks.map (fun b : OscillatorBank => b.play pitch time) ∧
        (v.play pitch velocity time now).gain.events =
          v.gain.events ++
            [GainEvent.expRamp (rampTarget 0) now,
             GainEvent.expRamp (rampTarget velocity) (time + v.adsr.attack),
             GainEvent.expRamp (rampTarget (velocity * v.adsr.sustain))
               (time + v.adsr.attack + v.adsr.decay)]) ∧
    ((testVoice.play 440 1 0 0).state = PlayState.playing ∧
     (testVoice.play 440 1 0 0).gain.events =
       [GainEvent.expRamp gainFloor 0, GainEvent.expRamp 1 (1 / 10),
        GainEvent.expRamp (1 / 2) (1 / 5)] ∧
     testVoice.oscillatorBanks.length = 1 ∧
     (testVoice.play 440 1 0 0).oscillatorBanks.map
         (fun b : OscillatorBank => b.oscillators.map Oscillator.events) =
       [[[OscEvent.played 440 0]]]) := by
  constructor
  · intro v pitch velocity time now h
    rw [Voice.play_ready v pitch velocity time now h]
    simp
  · have h : testVoice.state = PlayState.ready := by decide
    have he : testVoice.gain.events = [] := rfl
    have ha : testVoice.adsr = ⟨1 / 10, 1 / 10, 1 / 2, 1 / 5⟩ := rfl
    refine ⟨?_, ?_, by decide, ?_⟩
    · rw [Voice.play_ready testVoice 440 1 0 0 h]
    · rw [Voice.play_ready testVoice 440 1 0 0 h]
      simp only [he, ha, List.nil_append]
      norm_num [rampTarget]
    · rw [Voice.play_ready testVoice 440 1 0 0 h]
      decide

theorem claim_C3_witness :
    testVoice.state = PlayState.ready ∧
    (testVoice.play 440 1 0 0).state = PlayState.playing :=
  ⟨by decide, (claim_C3.1 testVoice 440 1 0 0 (by decide)).1⟩

theorem falsyIdx_succ (n : ℕ) : falsyIdx (some (n + 1)) = false := rfl

/-- C4: `Voice.get` returns `undefined` for a falsy `oscIndex` (absent
or 0); for a truthy `oscIndex` it returns the bank whenever
`partialIndex` is falsy (absent or 0), the oscillator at `partialIndex`
within the bank when truthy, and `undefined` when the bank at `oscIndex`
does not exist. -/
theorem claim_C4 :
    (∀ (v : Voice) (pI : Option ℕ),
        v.get none pI = none ∧ v.get (some 0) pI = none) ∧
    (∀ (v : Voice) (i : ℕ) (pI : Option ℕ),
        v.oscillatorBanks.get? i = none → v.get (some i) pI = none) ∧
    (∀ (v : Voice) (i : ℕ) (b : OscillatorBank) (pI : Option ℕ),
        i ≠ 0 → v.oscillatorBanks.get? i = some b →
        (falsyIdx pI = true → v.get (some i) pI = some (GetResult.bank b)) ∧
        (∀ j : ℕ, pI = some j → falsyIdx pI = false →
            v.get (some i) pI =
              (b.oscillators.get? j).map GetResult.osc)) := by
  refine ⟨?_, ?_, ?_⟩
  · intro v pI
    exact ⟨rfl, rfl⟩
  · intro v i pI hget
    cases i with
    | zero => rfl
    | succ n =>
        simp only [List.get?_eq_getElem?] at hget
        simp [Voice.get, falsyIdx_succ, hget]
  · intro v i b pI hi hget
    cases i with
    | zero => exact absurd rfl hi
    | succ n =>
        simp only [List.get?_eq_getElem?] at hget
        constructor
        · intro hp
          simp [Voice.get, falsyIdx_succ, hget, hp]
        · intro j hj hp
          subst hj
          simp [Voice.get, falsyIdx_succ, hget, hp]

theorem claim_C4_witness :
    v3banks.get (some 2) (some 0) =
      some (GetResult.bank (OscillatorBank.construct [⟨2, 2, 2⟩] 0)) :=
  (claim_C4.2.2 v3banks 2 (OscillatorBank.construct [⟨2, 2, 2⟩] 0) (some 0)
      (by decide) (by decide)).1 (by decide)

theorem OscillatorBank.removeOscillator_at (b : OscillatorBank) (i : ℤ)
    (s : ℕ) (hs : spliceStart b.oscillators.length i = s)
    (h : s < b.oscillators.length) :
    (b.removeOscillator i).1 =
      (b.oscillators.get? s).map Oscillator.destroy ∧
    (b.removeOscillator i).1 ≠ none ∧
    (b.removeOscillator i).2 =
      { b with oscillators :=
          b.oscillators.take s ++ b.oscillators.drop (s + 1) } := by
  have hget : b.oscillators.get? s = some (b.oscillators.get ⟨s, h⟩) :=
    List.get?_eq_get h
  have hsplice :
      spliceOne b.oscillators i =
        (some (b.oscillators.get ⟨s, h⟩),
          b.oscillators.take s ++ b.oscillators.drop (s + 1)) := by
    simp [spliceOne, hs, hget]
  refine ⟨?_, ?_, ?_⟩ <;>
    simp [OscillatorBank.removeOscillator, hsplice,
      List.getElem?_eq_getElem h]

/-- C5 as stated is false: `removeOscillator(-1)` on a one-oscillator
bank (index `-1` lies outside `[0, N)`) removes and returns the last
oscillator instead of returning `undefined`. -/
theorem claim_C5_counterexample :
    ¬ ((testBank1.removeOscillator (-1)).1 = none ∧
       (testBank1.removeOscillator (-1)).2.oscillators =
         testBank1.oscillators) := by
  decide

/-- C5 (amended): for every index `≥ N` — out of range on the
nonnegative side — `removeOscillator` returns `undefined` and leaves the
bank unchanged (no error); for every index in `[0, N)` it removes the
oscillator at that index, destroys it, and returns it.  (Negative
indices follow JavaScript `splice` semantics and do remove an element —
see C9.) -/
theorem claim_C5 :
    (∀ (b : OscillatorBank) (i : ℤ), (b.oscillators.length : ℤ) ≤ i →
        (b.removeOscillator i).1 = none ∧ (b.removeOscillator i).2 = b) ∧
    (∀ (b : OscillatorBank) (i : ℕ), i < b.oscillators.length →
        (b.removeOscillator (i : ℤ)).1 =
          (b.oscillators.get? i).map Oscillator.destroy ∧
        (b.removeOscillator (i : ℤ)).1 ≠ none ∧
        (b.removeOscillator (i : ℤ)).2 =
          { b with oscillators :=
              b.oscillators.take i ++ b.oscillators.drop (i + 1) }) := by
  constructor
  · intro b i h
    have h0 : ¬ i < 0 := by omega
    have ht : b.oscillators.length ≤ i.toNat := by omega
    have hs :
        spliceStart b.oscillators.length i = b.oscillators.length := by
      simp [spliceStart, h0]
      omega
    have hget : b.oscillators.get? b.oscillators.length = none := by
      simp
    have hsplice :
        spliceOne b.oscillators i = (none, b.oscillators) := by
      simp [spliceOne, hs, hget, List.drop_eq_nil_of_le]
    refine ⟨?_, ?_⟩ <;>
      simp [OscillatorBank.removeOscillator, hsplice]
  · intro b i h
    have hs : spliceStart b.oscillators.length (i : ℤ) = i := by
      rw [spliceStart_coe]
      omega
    exact OscillatorBank.removeOscillator_at b (i : ℤ) i hs h

theorem claim_C5_witness :
    (testBank3.removeOscillator 5).1 = none ∧
    (testBank3.removeOscillator 5).2 = testBank3 :=
  claim_C5.1 testBank3 5 (by decide)

/-- C6: updating a bank (or a voice, when not `used`) with its own
current descriptor list is a no-op on membership — the child count is
unchanged and no child is created or removed — while the per-item
`update` is still invoked on every existing child; and an `update` with
`L` composed after any other `update` leaves exactly `length L`
children. -/
theorem claim_C6 :
    (∀ (b : OscillatorBank) (now : ℚ), b.state ≠ PlayState.used →
        (b.update ⟨b.descriptors⟩ now).oscillators.length =
          b.oscillators.length ∧
        (b.update ⟨b.descriptors⟩ now).oscillators =
          b.oscillators.map (fun o => o.update o.descriptor)) ∧
    (∀ (v : Voice) (now : ℚ), v.state ≠ PlayState.used →
        (v.update v.spectrumOf now).oscillatorBanks.length =
          v.oscillatorBanks.length ∧
        (v.update v.spectrumOf now).oscillatorBanks =
          v.oscillatorBanks.map
            (fun b : OscillatorBank => b.update ⟨b.descriptors⟩ now)) ∧
    (∀ (b : OscillatorBank) (L1 L2 : SpectralLayer) (now1 now2 : ℚ),
        ((b.update L1 now1).update L2 now2).oscillators.length =
          L2.partials.length) ∧
    (∀ (v : Voice) (s1 s2 : Spectrum) (now1 now2 : ℚ),
        v.state ≠ PlayState.used →
        ((v.update s1 now1).update s2 now2).oscillatorBanks.length =
          s2.length) := by
  refine ⟨?_, ?_, ?_, ?_⟩
  · intro b now _
    constructor
    · rw [OscillatorBank.update_length_bank]
      simp [OscillatorBank.descriptors]
    · rw [OscillatorBank.update_eq_bank]
      simp [OscillatorBank.descriptors, List.zipWith_map_right,
        List.zipWith_same]
  · intro v now h
    constructor
    · rw [Voice.update_length_voice v _ now h]
      simp [Voice.spectrumOf]
    · rw [Voice.update_eq_voice v _ now h]
      simp [Voice.spectrumOf, List.zipWith_map_right, List.zipWith_same]
  · intro b L1 L2 now1 now2
    exact OscillatorBank.update_length_bank _ L2 now2
  · intro v s1 s2 now1 now2 h
    have h2 : (v.update s1 now1).state ≠ PlayState.used := by
      rw [Voice.update_state_voice]
      exact h
    exact Voice.update_length_voice _ s2 now2 h2

theorem claim_C6_witness :
    testBank3.state ≠ PlayState.used ∧
    (testBank3.update ⟨testBank3.descriptors⟩ 0).oscillators.length =
      testBank3.oscillators.length :=
  ⟨by decide, (claim_C6.1 testBank3 0 (by decide)).1⟩

/-- C7: `OscillatorBank.stop` forwards `stop(time)` to every owned
oscillator and leaves `_state` unchanged, and `Voice.release` leaves
`_state` unchanged (a playing voice stays `playing`). -/
theorem claim_C7 :
    (∀ (b : OscillatorBank) (time : ℚ),
        (b.stop time).state = b.state ∧
        (b.stop time).oscillators =
          b.oscillators.map (fun o => o.stop time)) ∧
    (∀ (v : Voice) (time : ℚ), (v.release time).state = v.state) :=
  ⟨fun _ _ => ⟨rfl, rfl⟩, fun _ _ => rfl⟩

theorem OscillatorBank.destroy_state (b : OscillatorBank) (now : ℚ) :
    (b.destroy now).state = b.state := by
  by_cases hp : b.state = PlayState.playing <;>
    simp [OscillatorBank.destroy, OscillatorBank.stop, hp]

theorem BankOp.apply_state (b : OscillatorBank) (op : BankOp)
    (h : b.state ≠ PlayState.used) :
    (BankOp.apply b op).state ≠ PlayState.used := by
  cases op with
  | play pitch time =>
      by_cases hu : b.state = PlayState.used
      · exact absurd hu h
      · simp [BankOp.apply, OscillatorBank.play, hu]
  | stop time => exact h
  | update layer now =>
      rw [BankOp.apply, OscillatorBank.update_state_bank]
      exact h
  | createOscillator p now => exact h
  | removeOscillator index =>
      rw [BankOp.apply, OscillatorBank.removeOscillator_snd]
      exact h
  | setGain value time => exact h
  | shiftRate shift => exact h
  | destroy now =>
      rw [BankOp.apply, OscillatorBank.destroy_state]
      exact h

theorem BankOp.foldl_state (ops : List BankOp) :
    ∀ (b : OscillatorBank), b.state ≠ PlayState.used →
      (ops.foldl BankOp.apply b).state ≠ PlayState.used := by
  induction ops with
  | nil => intro b h; exact h
  | cons op ops ih =>
      intro b h
      exact ih (BankOp.apply b op) (BankOp.apply_state b op h)

/-- C8: along every finite sequence of public `OscillatorBank`
operations from a freshly constructed bank, `_state` stays in
{ready, playing}; the declared state `used` is never assigned, so the
`used` guard in `OscillatorBank.play` can never fire. -/
theorem claim_C8 :
    ∀ (ops : List BankOp) (partials : List PartialDesc) (now : ℚ),
      (ops.foldl BankOp.apply (OscillatorBank.construct partials now)).state =
          PlayState.ready ∨
      (ops.foldl BankOp.apply (OscillatorBank.construct partials now)).state =
          PlayState.playing := by
  intro ops partials now
  have h := BankOp.foldl_state ops (OscillatorBank.construct partials now)
    (by simp [OscillatorBank.construct])
  cases hstate :
      (ops.foldl BankOp.apply (OscillatorBank.construct partials now)).state with
  | ready => exact Or.inl rfl
  | playing => exact Or.inr rfl
  | used => exact absurd hstate h

theorem spliceStart_neg (n k : ℕ) (hk : 1 ≤ k) :
    spliceStart n (-(k : ℤ)) = n - k := by
  have hneg : (-(k : ℤ)) < 0 := by omega
  simp [spliceStart, hneg]
  omega

/-- C9: a negative index follows JavaScript `splice` semantics:
`removeOscillator(-k)` with `1 ≤ k ≤ N` removes, destroys and returns
the oscillator at position `N - k` (so `-1` removes the last one); with
`k > N` (and a nonempty bank) it removes the first oscillator.  In both
cases the result is not `undefined`. -/
theorem claim_C9 :
    (∀ (b : OscillatorBank) (k : ℕ), 1 ≤ k → k ≤ b.oscillators.length →
        (b.removeOscillator (-(k : ℤ))).1 =
          (b.oscillators.get? (b.oscillators.length - k)).map
            Oscillator.destroy ∧
        (b.removeOscillator (-(k : ℤ))).1 ≠ none ∧
        (b.removeOscillator (-(k : ℤ))).2 =
          { b with oscillators :=
              b.oscillators.take (b.oscillators.length - k) ++
                b.oscillators.drop (b.oscillators.length - k + 1) }) ∧
    (∀ (b : OscillatorBank) (k : ℕ), 0 < b.oscillators.length →
        b.oscillators.length < k →
        (b.removeOscillator (-(k : ℤ))).1 =
          (b.oscillators.get? 0).map Oscillator.destroy ∧
        (b.removeOscillator (-(k : ℤ))).1 ≠ none) := by
  constructor
  · intro b k hk1 hk2
    have hs :
        spliceStart b.oscillators.length (-(k : ℤ)) =
          b.oscillators.length - k := spliceStart_neg _ _ hk1
    have h : b.oscillators.length - k < b.oscillators.length := by omega
    exact OscillatorBank.removeOscillator_at b (-(k : ℤ)) _ hs h
  · intro b k h0 hk
    have hs : spliceStart b.oscillators.length (-(k : ℤ)) = 0 := by
      rw [spliceStart_neg _ _ (by omega)]
      omega
    have hr := OscillatorBank.removeOscillator_at b (-(k : ℤ)) 0 hs h0
    exact ⟨hr.1, hr.2.1⟩

theorem claim_C9_witness :
    (testBank3.removeOscillator (-(1 : ℕ) : ℤ)).1 =
      (testBank3.oscillators.get? (testBank3.oscillators.length - 1)).map
        Oscillator.destroy ∧
    (testBank3.removeOscillator (-(1 : ℕ) : ℤ)).1 ≠ none ∧
    (testBank3.removeOscillator (-(1 : ℕ) : ℤ)).2 =
      { testBank3 with oscillators :=
          testBank3.oscillators.take (testBank3.oscillators.length - 1) ++
            testBank3.oscillators.drop (testBank3.oscillators.length - 1 + 1) } :=
  claim_C9.1 testBank3 1 (by decide) (by decide)

/-- C10: `OscillatorBank.destroy` does not retire the bank: `_state` and
`_pitch` are unchanged, the oscillator collection keeps its members
(each merely receives `stop` when the bank was playing), and only the
gain stage is disconnected — so a later `play` takes full effect on
every oscillator and a later `update` reconciles normally, unlike
`Voice.destroy`, which sets state `used`. -/
theorem claim_C10 :
    (∀ (b : OscillatorBank) (now : ℚ),
        (b.destroy now).state = b.state ∧
        (b.destroy now).pitch = b.pitch ∧
        (b.destroy now).oscillators =
          (if b.state = PlayState.playing
            then b.oscillators.map (fun o => o.stop now)
            else b.oscillators) ∧
        (b.destroy now).gain.connected = false) ∧
    (∀ (b : OscillatorBank) (now pitch time : ℚ),
        b.state ≠ PlayState.used →
        ((b.destroy now).play pitch time).state = PlayState.playing ∧
        ((b.destroy now).play pitch time).pitch = pitch ∧
        ((b.destroy now).play pitch time).oscillators =
          (b.destroy now).oscillators.map (fun o => o.play pitch time)) ∧
    (∀ (b : OscillatorBank) (now now2 : ℚ) (layer : SpectralLayer),
        ((b.destroy now).update layer now2).oscillators.length =
          layer.partials.length) ∧
    (∀ (v : Voice) (now : ℚ), (v.destroy now).state = PlayState.used) := by
  refine ⟨?_, ?_, ?_, ?_⟩
  · intro b now
    by_cases hp : b.state = PlayState.playing <;>
      simp [OscillatorBank.destroy, OscillatorBank.stop, hp]
  · intro b now pitch time h
    have hne : (b.destroy now).state ≠ PlayState.used := by
      rw [OscillatorBank.destroy_state]
      exact h
    refine ⟨?_, ?_, ?_⟩ <;> simp [OscillatorBank.play, hne]
  · intro b now now2 layer
    exact OscillatorBank.update_length_bank _ layer now2
  · intro v now
    rfl

theorem claim_C10_witness :
    testBank3.state ≠ PlayState.used ∧
    ((testBank3.destroy 0).play 440 1).state = PlayState.playing :=
  ⟨by decide, (claim_C10.2.1 testBank3 0 440 1 (by decide)).1⟩
